import Mathlib

/-!
Verification of the schema-validation helper of the PwApiFm repository
(src/helpers/schemaValidator.ts and its earlier revision src/unnamed/part_001).

The helper normalizes the error reports of two validation libraries (AJV for
JSON-Schema structural validation, Zod for typed validation) into one
ValidationError shape, resolving each error's received value by walking the
original payload along the error's path.

Modelling choices, stated once here:
* JavaScript values are modelled by the inductive type JsVal below.  The
  distinguished JsVal.undefined constructor models the JavaScript value
  undefined, which the helper treats specially (the === undefined checks and
  the optional-chaining accesses).  Numbers are modelled as integers: every
  payload this repository validates carries integral numbers only.
* The two validation libraries are external npm dependencies; their compiled
  validators are modelled as oracles: an AjvOutcome value stands for the
  state of an AJV compiled validator right after it ran on the data, and a
  ZodSchemaModel packages a safeParse function, which is exactly the
  interface the helper consumes.
* Property access x?.[key] is modelled for JSON data: object field lookup
  and canonical array indexing.  Exotic JavaScript properties (for example
  the length property of strings) are not modelled; no schema in this
  repository produces such a path segment.
-/

mutual
/-- A JavaScript value as the validator helper sees it.  undefined models the
JavaScript undefined value, distinct from null.  Arrays and objects nest
through the mutually defined list types so that all recursion over values is
structural. -/
inductive JsVal where
  | undefined
  | null
  | bool (b : Bool)
  | num (n : Int)
  | str (s : String)
  | arr (elems : JsItems)
  | obj (fields : JsFields)

inductive JsItems where
  | nil
  | cons (v : JsVal) (rest : JsItems)

inductive JsFields where
  | nil
  | cons (k : String) (v : JsVal) (rest : JsFields)
end

/-- True exactly on the undefined value (models x === undefined). -/
def JsVal.isUndefined : JsVal → Bool
  | .undefined => true
  | _ => false

/-- True exactly on the null value. -/
def JsVal.isNull : JsVal → Bool
  | .null => true
  | _ => false

/-- Models the idiom x === undefined ? null : x used by both normalizers. -/
def undefToNull : JsVal → JsVal
  | .undefined => .null
  | v => v

/-- JavaScript truthiness: undefined, null, false, 0 and the empty string are
falsy; every other value (including empty arrays and objects) is truthy. -/
def jsTruthy : JsVal → Bool
  | .undefined => false
  | .null => false
  | .bool b => b
  | .num n => decide (n ≠ 0)
  | .str s => decide (s ≠ "")
  | .arr _ => true
  | .obj _ => true

/-- First-match field lookup on an object; absent keys give undefined. -/
def jsFieldsGet : JsFields → String → JsVal
  | .nil, _ => .undefined
  | .cons k v rest, key => if k = key then v else jsFieldsGet rest key

/-- Positional lookup in an array; out-of-range indices give undefined. -/
def jsItemsGet : JsItems → Nat → JsVal
  | .nil, _ => .undefined
  | .cons v _, 0 => v
  | .cons _ rest, n + 1 => jsItemsGet rest n

/-- The numeric value of a decimal digit character, if it is one. -/
def charDigit? (c : Char) : Option Nat :=
  if c.toNat ≥ 48 ∧ c.toNat ≤ 57 then some (c.toNat - 48) else none

/-- Accumulating decimal evaluation of a character list. -/
def digitsVal : List Char → Nat → Option Nat
  | [], acc => some acc
  | c :: rest, acc =>
    match charDigit? c with
    | some d => digitsVal rest (acc * 10 + d)
    | none => none

/-- A string that is a canonical JavaScript array index (digits, no leading
zeros except the index 0 itself) parses to that index; anything else does
not.  JavaScript array access by such strings returns the element. -/
def arrayIndex? (k : String) : Option Nat :=
  match k.toList with
  | [] => none
  | c :: rest =>
    match digitsVal (c :: rest) 0 with
    | none => none
    | some n => if toString n = k then some n else none

/-- Models the optional-chaining member access received?.[key] performed by
both normalizers while walking the payload: nullish and primitive receivers
give undefined, objects look the key up, arrays use canonical indexing. -/
def jsOptGet (v : JsVal) (key : String) : JsVal :=
  match v with
  | .obj fs => jsFieldsGet fs key
  | .arr xs =>
    match arrayIndex? key with
    | some i => jsItemsGet xs i
    | none => .undefined
  | _ => .undefined -- nullish or primitive receiver

/-- The received-value walk both normalizers perform: starting from the whole
data, follow the path key by key with optional-chaining access; an empty path
yields the whole data (the root-level case in the source). -/
def receivedAlong (data : JsVal) (path : List String) : JsVal :=
  if 0 < path.length then path.foldl jsOptGet data else data

mutual
/-- JavaScript String() coercion, as used for String(iss.path element),
String(iss.message ?? "") and String(e.message ?? "").  Arrays join their
elements with commas, nullish elements becoming empty. -/
def jsToString : JsVal → String
  | .undefined => "undefined"
  | .null => "null"
  | .bool b => cond b "true" "false"
  | .num n => toString n
  | .str s => s
  | .arr xs => jsItemsJoin xs
  | .obj _ => "[object Object]"

def jsItemsJoin : JsItems → String
  | .nil => ""
  | .cons .undefined .nil => ""
  | .cons .null .nil => ""
  | .cons v .nil => jsToString v
  | .cons .undefined rest => "," ++ jsItemsJoin rest
  | .cons .null rest => "," ++ jsItemsJoin rest
  | .cons v rest => jsToString v ++ "," ++ jsItemsJoin rest
end

/-- Maps String() over the elements of an array value, modelling
iss.path.map(String). -/
def jsItemsToStringList : JsItems → List String
  | .nil => []
  | .cons v rest => jsToString v :: jsItemsToStringList rest

/-- JSON string escaping for the characters that can occur in this
repository's data (quote, backslash and the common control characters). -/
def jsonEscapeChar (c : Char) : String :=
  if c = '"' then "\\\""
  else if c = '\\' then "\\\\"
  else if c = '\n' then "\\n"
  else if c = '\r' then "\\r"
  else if c = '\t' then "\\t"
  else String.singleton c

/-- A JSON-quoted string literal. -/
def jsonQuote (s : String) : String :=
  "\"" ++ String.join (s.toList.map jsonEscapeChar) ++ "\""

mutual
/-- JSON.stringify as used by the message builder.  The builder only ever
applies it to truthy values, so the undefined branch (where the real
JSON.stringify yields no string) is mapped to "null" like the null branch;
undefined array elements serialize as null and undefined object fields are
skipped, as in JavaScript. -/
def jsonStringify : JsVal → String
  | .undefined => "null"
  | .null => "null"
  | .bool b => cond b "true" "false"
  | .num n => toString n
  | .str s => jsonQuote s
  | .arr xs => "[" ++ jsonItemsStr xs ++ "]"
  | .obj fs => "\x7b" ++ jsonFieldsStr fs ++ "\x7d"

def jsonItemsStr : JsItems → String
  | .nil => ""
  | .cons v .nil => jsonStringify v
  | .cons v rest => jsonStringify v ++ "," ++ jsonItemsStr rest

def jsonFieldsStr : JsFields → String
  | .nil => ""
  | .cons _ .undefined rest => jsonFieldsStr rest
  | .cons k v rest =>
    let restStr := jsonFieldsStr rest
    jsonQuote k ++ ":" ++ jsonStringify v ++ (if restStr = "" then "" else "," ++ restStr)
end

/-- Splitting a character list on a separator character, modelling the
JavaScript String.prototype.split with a one-character separator. -/
def splitCharsOn (sep : Char) : List Char → String → List String
  | [], acc => [acc]
  | c :: rest, acc =>
    if c = sep then acc :: splitCharsOn sep rest "" else splitCharsOn sep rest (acc.push c)

/-- pointer.split("/") of the source, for JSON-pointer parsing. -/
def jsSplitSlash (s : String) : List String := splitCharsOn '/' s.toList ""

/-- Substring test (true when pat occurs contiguously in s), used to state
the message-contains clauses of the specification. -/
def listPrefixOf : List Char → List Char → Bool
  | [], _ => true
  | _ :: _, [] => false
  | c :: cs, d :: ds => c = d && listPrefixOf cs ds

/-- Helper for strContains: does pat occur in any suffix. -/
def listContainsSub (pat : List Char) : List Char → Bool
  | [] => listPrefixOf pat []
  | c :: rest => listPrefixOf pat (c :: rest) || listContainsSub pat rest

/-- True when pat occurs as a substring of s. -/
def strContains (s pat : String) : Bool := listContainsSub pat.toList s.toList

/-- The normalized error shape both validators produce (the ValidationError
type declared locally in both functions of the source): path of string keys,
message, and the inferred expected and resolved received values, both null
rather than undefined when nothing is available. -/
structure ValidationError where
  path : List String
  message : String
  expected : JsVal
  received : JsVal

/-- The params object of an AJV raw error (src/helpers/schemaValidator.ts
lines 73 to 79 read its allowedValues, type and format members); a member
that the error does not carry is the undefined value. -/
structure AjvParams where
  allowedValues : JsVal
  type : JsVal
  format : JsVal

/-- One raw AJV error as the source reads it: the JSON-pointer fields (an
absent or null field is none), the message (String(e.message ?? ""), the
message being a string whenever present), and the optional params object. -/
structure AjvRawError where
  instancePath : Option String
  dataPath : Option String
  message : Option String
  params : Option AjvParams

/-- The state of an AJV compiled validator right after validate(data) ran:
the boolean it returned and its errors property, none when that property is
not an array (AJV sets it to null on success).  The AJV library is an
external dependency, so the compiled validator is modelled as this oracle
outcome. -/
structure AjvOutcome where
  valid : Bool
  errors : Option (List AjvRawError)

/-- The { valid, errors } result of validateSchema. -/
structure StructuralResult where
  valid : Bool
  errors : List ValidationError

/-- e.instancePath ?? e.dataPath ?? "" of the source (line 65). -/
def ajvPointer (e : AjvRawError) : String :=
  match e.instancePath with
  | some p => p
  | none =>
    match e.dataPath with
    | some p => p
    | none => ""

/-- Lines 66 to 68 of the source: a truthy (nonempty) pointer is split on
slashes and empty segments are dropped; otherwise the path is empty. -/
def ajvPath (e : AjvRawError) : List String :=
  let pointer := ajvPointer e
  if pointer ≠ "" then (jsSplitSlash pointer).filter (fun s => 0 < s.length) else []

/-- Lines 72 to 79 of the source: expected is the first defined member among
params.allowedValues, params.type and params.format, when a params object is
present; otherwise null. -/
def ajvExpected (e : AjvRawError) : JsVal :=
  match e.params with
  | none => .null
  | some p =>
    if !p.allowedValues.isUndefined then p.allowedValues
    else if !p.type.isUndefined then p.type
    else if !p.format.isUndefined then p.format
    else .null

/-- Lines 62 to 99 of the source: one raw AJV error mapped to the normalized
shape.  The stored path is path.map(String), the identity on the string
segments the split produced; received walks the data along the path (the
whole data for a root-level error); the final ternaries replace undefined by
null. -/
def ajvNormalizeError (data : JsVal) (e : AjvRawError) : ValidationError :=
  let path := ajvPath e
  ⟨path,
   (match e.message with
    | some m => m
    | none => ""),
   undefToNull (ajvExpected e),
   undefToNull (receivedAlong data path)⟩

/-- validateSchema of src/helpers/schemaValidator.ts (lines 40 to 102): the
valid flag is what the compiled validator returned, and the errors array is
the normalization of validate.errors (taken as empty when not an array). -/
def validateSchema (outcome : AjvOutcome) (data : JsVal) : StructuralResult :=
  ⟨outcome.valid,
   (match outcome.errors with
    | some l => l
    | none => []).map (ajvNormalizeError data)⟩

/-- One raw Zod issue as the source reads it: its path, message and expected
members, each an arbitrary JavaScript value (undefined when absent). -/
structure ZodIssue where
  path : JsVal
  message : JsVal
  expected : JsVal

/-- The result of a safeParse call: success carries result.data, failure
carries result.error.issues (none when that is not an array). -/
inductive ZodSafeParseResult where
  | success (data : JsVal)
  | failure (issues : Option (List ZodIssue))

/-- A schema object exposing a callable safeParse, which is the only
capability validateSchemaUsingZod consumes.  The Zod library is an external
dependency, so a schema is modelled by this interface. -/
structure ZodSchemaModel where
  safeParse : JsVal → ZodSafeParseResult

/-- Lines 162 to 164 of the source: an array path maps String over its
elements, any other path value becomes the one-element list of its String
coercion. -/
def zodIssuePath (iss : ZodIssue) : List String :=
  match iss.path with
  | .arr xs => jsItemsToStringList xs
  | v => [jsToString v]

/-- Lines 159 to 188 of the source: one raw Zod issue mapped to the
normalized shape; received walks the data along the normalized path (the
whole data for a root-level error) and the ternaries replace undefined by
null. -/
def zodNormalizeIssue (data : JsVal) (iss : ZodIssue) : ValidationError :=
  let path := zodIssuePath iss
  ⟨path,
   (match iss.message with
    | .undefined => ""
    | .null => ""
    | m => jsToString m),
   undefToNull iss.expected,
   undefToNull (receivedAlong data path)⟩

/-- The extended { valid, parsedData, errors, message } result of
validateSchemaUsingZod.  parsedData is a JavaScript value: the success
branch stores the parsed value (which a null-accepting schema can make the
JavaScript null) and the failure branch stores the null value, exactly as
the source writes parsedData: null — so the JavaScript null has one
representation and non-null is expressible.  The errors and message members
are none where the source stores null. -/
structure TypedResult where
  valid : Bool
  parsedData : JsVal
  errors : Option (List ValidationError)
  message : Option String

/-- Lines 195 to 207 of the source: one message line.  The path is
dot-joined, or (root) when empty; the expected and received segments are
appended only when the corresponding value is truthy. -/
def formatErrorLine (e : ValidationError) : String :=
  "path: " ++ (if 0 < e.path.length then String.intercalate "." e.path else "(root)") ++
  " | message: " ++ e.message ++
  (if jsTruthy e.expected then " | expected: " ++ jsonStringify e.expected else "") ++
  (if jsTruthy e.received then " | received: " ++ jsonStringify e.received else "")

/-- Lines 190 to 208 of the source: the human-readable summary is the
newline-join of the per-error lines, or a fixed fallback when the normalized
error list is empty. -/
def typedFailureMessage (errors : List ValidationError) : String :=
  if errors.length = 0 then "Unknown validation error"
  else String.intercalate "\n" (errors.map formatErrorLine)

/-- validateSchemaUsingZod of src/helpers/schemaValidator.ts (lines 116 to
216).  A schema argument of none models an object without a callable
safeParse member, on which the source throws (modelled by Except.error with
the thrown message).  Otherwise safeParse runs: success yields the parsed
data with null errors and message; failure normalizes result.error.issues
(empty when not an array) and builds the summary message. -/
def validateSchemaUsingZod (schema : Option ZodSchemaModel) (data : JsVal) :
    Except String TypedResult :=
  match schema with
  | none => Except.error "validateSchemaUsingZod: provided schema does not implement safeParse()"
  | some s =>
    match s.safeParse data with
    | .success d => Except.ok ⟨true, d, none, none⟩
    | .failure issuesOpt =>
      let rawIssues :=
        match issuesOpt with
        | some l => l
        | none => []
      let errors := rawIssues.map (zodNormalizeIssue data)
      Except.ok ⟨false, JsVal.null, some errors, some (typedFailureMessage errors)⟩

/-- The { valid, errors } result of assertSchema. -/
structure AssertResult where
  valid : Bool
  errors : List ValidationError

/-- assertSchema of src/helpers/schemaValidator.ts (lines 238 to 250): the
thin wrapper that keeps the valid flag and replaces a null errors member by
the empty list (res.errors || []; a non-null errors member is an array and
arrays are truthy).  The exception of the inner call propagates. -/
def assertSchema (schema : Option ZodSchemaModel) (data : JsVal) :
    Except String AssertResult :=
  match validateSchemaUsingZod schema data with
  | .error m => Except.error m
  | .ok res =>
    Except.ok ⟨res.valid,
      (match res.errors with
       | some l => l
       | none => [])⟩

namespace Part001

/-- validateSchemaUsingZod of the earlier revision src/unnamed/part_001
(lines 59 to 141).  That revision is textually identical to the current one
apart from comments, so the issue normalizer and message builder, whose
bodies coincide, are shared with the embedding above. -/
def validateSchemaUsingZod (schema : Option ZodSchemaModel) (data : JsVal) :
    Except String TypedResult :=
  match schema with
  | none => Except.error "validateSchemaUsingZod: provided schema does not implement safeParse()"
  | some s =>
    match s.safeParse data with
    | .success d => Except.ok ⟨true, d, none, none⟩
    | .failure issuesOpt =>
      let rawIssues :=
        match issuesOpt with
        | some l => l
        | none => []
      let errors := rawIssues.map (zodNormalizeIssue data)
      Except.ok ⟨false, JsVal.null, some errors, some (typedFailureMessage errors)⟩

/-- assertSchema of the earlier revision src/unnamed/part_001 (lines 146 to
156): like the current revision it never throws on validation failure and
returns { valid, errors: res.errors || [] }. -/
def assertSchema (schema : Option ZodSchemaModel) (data : JsVal) :
    Except String AssertResult :=
  match validateSchemaUsingZod schema data with
  | .error m => Except.error m
  | .ok res =>
    Except.ok ⟨res.valid,
      (match res.errors with
       | some l => l
       | none => [])⟩

end Part001

/-- The runtime type name of a value, as Zod reports it in its messages. -/
def jsTypeName : JsVal → String
  | .undefined => "undefined"
  | .null => "null"
  | .bool _ => "boolean"
  | .num _ => "number"
  | .str _ => "string"
  | .arr _ => "array"
  | .obj _ => "object"

/-- True exactly on number values. -/
def isNumberVal : JsVal → Bool
  | .num _ => true
  | _ => false

/-- True exactly on string values. -/
def isStringVal : JsVal → Bool
  | .str _ => true
  | _ => false

/-- Modelled from the spec: the behaviour of one field validator of the Zod
object schema.  The Zod library is an external dependency whose code is not
part of this repository, so its safe validation of one declared field is
modelled from the specification: a missing required field yields one issue
located at that field whose message contains "required" (specification,
concrete scenario 3), and a present field of the wrong runtime type yields
one issue located at that field naming the expected type. -/
def zodFieldIssues (data : JsVal) (key ty : String) (check : JsVal → Bool) : List ZodIssue :=
  let v := jsOptGet data key
  if v.isUndefined then [⟨.arr (.cons (.str key) .nil), .str "required", .str ty⟩]
  else if check v then []
  else [⟨.arr (.cons (.str key) .nil),
         .str ("Expected " ++ ty ++ ", received " ++ jsTypeName v), .str ty⟩]

/-- Modelled from the spec: schemas.zodSingleUserSchema of
src/fixtures/api-fixtures.ts, the typed schema built from the external Zod
library as z.object of id : z.number, userName : z.string and password :
z.string.  The declaration is in the source but the validation behaviour
lives in the Zod dependency, so it is modelled from the specification: safe
validation of a non-object fails with a root-level issue, otherwise the
three declared fields are checked in declaration order, and a payload on
which no field check fails parses successfully with the payload as the
parsed value (specification, round-trip property: the parsed data of a valid
payload is deep-equal to the input for schemas with no transforming or
coercing fields). -/
def zodSingleUserSchema : ZodSchemaModel :=
  ⟨fun data =>
    match data with
    | .obj _ =>
      match zodFieldIssues data "id" "number" isNumberVal ++
            zodFieldIssues data "userName" "string" isStringVal ++
            zodFieldIssues data "password" "string" isStringVal with
      | [] => .success data
      | iss => .failure (some iss)
    | v => .failure (some [⟨.arr .nil, .str ("Expected object, received " ++ jsTypeName v),
                            .str "object"⟩])⟩

/-- The line format asserted by the specification: the expected and received
segments are present whenever the error carries the corresponding value,
that is, whenever the normalized member is not null. -/
def claimedLine (e : ValidationError) : String :=
  "path: " ++ (if 0 < e.path.length then String.intercalate "." e.path else "(root)") ++
  " | message: " ++ e.message ++
  (if e.expected.isNull then "" else " | expected: " ++ jsonStringify e.expected) ++
  (if e.received.isNull then "" else " | received: " ++ jsonStringify e.received)

/-- A schema whose safe validation accepts every payload unchanged. -/
def identSuccessSchema : ZodSchemaModel := ⟨fun d => .success d⟩

/-- A schema whose safe validation always fails without an issue list. -/
def alwaysFailSchema : ZodSchemaModel := ⟨fun _ => .failure none⟩

/-- A concrete fully valid single-user payload. -/
def c8payload : JsVal :=
  .obj (.cons "id" (.num 1)
    (.cons "userName" (.str "a")
      (.cons "password" (.str "b") .nil)))

/-- undefined ? null : x maps no value to undefined. -/
lemma undefToNull_ne_undefined (v : JsVal) : undefToNull v ≠ JsVal.undefined := by
  cases v <;> simp [undefToNull]

/-- undefined ? null : x is the identity away from undefined. -/
lemma undefToNull_of_ne_undefined (v : JsVal) (h : v ≠ JsVal.undefined) : undefToNull v = v := by
  cases v <;> first
  | exact absurd rfl h
  | rfl

/-- The received walk on the empty path is the whole data. -/
lemma receivedAlong_nil (data : JsVal) : receivedAlong data [] = data := rfl

/-- The two revisions of the typed validator agree on every input. -/
lemma part001_validate_eq (sch : Option ZodSchemaModel) (data : JsVal) :
    Part001.validateSchemaUsingZod sch data = validateSchemaUsingZod sch data := by
  cases sch with
  | none => rfl
  | some s =>
    cases hsp : s.safeParse data with
    | success d =>
      simp only [Part001.validateSchemaUsingZod, validateSchemaUsingZod, hsp]
    | failure issuesOpt =>
      simp only [Part001.validateSchemaUsingZod, validateSchemaUsingZod, hsp]

/-- A successful safe parse of the single-user schema returns the payload
itself, and that payload is an object. -/
lemma zodSingleUser_success_shape (payload d : JsVal)
    (h : zodSingleUserSchema.safeParse payload = ZodSafeParseResult.success d) :
    d = payload ∧ ∃ fs, payload = JsVal.obj fs := by
  cases payload with
  | obj fs =>
    simp only [zodSingleUserSchema] at h
    cases hiss : zodFieldIssues (JsVal.obj fs) "id" "number" isNumberVal ++
        zodFieldIssues (JsVal.obj fs) "userName" "string" isStringVal ++
        zodFieldIssues (JsVal.obj fs) "password" "string" isStringVal with
    | nil =>
      rw [hiss] at h
      exact ⟨(ZodSafeParseResult.success.inj h).symm, fs, rfl⟩
    | cons a t =>
      rw [hiss] at h
      exact ZodSafeParseResult.noConfusion h
  | undefined => simp [zodSingleUserSchema] at h
  | null => simp [zodSingleUserSchema] at h
  | bool b => simp [zodSingleUserSchema] at h
  | num n => simp [zodSingleUserSchema] at h
  | str s2 => simp [zodSingleUserSchema] at h
  | arr xs => simp [zodSingleUserSchema] at h

/-- Counterexample to claim C1 as stated: a schema whose safe validation
accepts every value unchanged (as the Zod z.any schema does, and as z.null
or a nullable field accepts the null value) makes the typed validator
return valid = true with parsedData equal to the JavaScript null value — so
a true valid flag does not guarantee a non-null parsedData for every
schema. -/
theorem claim_C1_counterexample :
    ∃ r, validateSchemaUsingZod (some identSuccessSchema) JsVal.null = Except.ok r ∧
      r.valid = true ∧ r.parsedData = JsVal.null :=
  ⟨⟨true, JsVal.null, none, none⟩, rfl, rfl, rfl⟩

/-- Claim C1 as amended: for every schema and data input, when the valid
flag of the result is true, the structural validator returns an empty
errors list (assuming the documented AJV contract that a compiled validator
whose call returned true left its errors property null), and the typed
validator returns errors equal to null, message equal to null, and
parsedData exactly the value its safe parse succeeded with — which is null
only when the schema itself successfully parses to the null value, as a
null-accepting Zod schema can; in particular the typed single-user schema
of this repository always yields a non-null (object) parsedData. -/
theorem claim_C1 (outcome : AjvOutcome) (sch : Option ZodSchemaModel) (data : JsVal)
    (hajv : outcome.valid = true → outcome.errors = none) :
    ((validateSchema outcome data).valid = true → (validateSchema outcome data).errors = []) ∧
    (∀ r, validateSchemaUsingZod sch data = Except.ok r → r.valid = true →
      r.errors = none ∧ r.message = none ∧
      (∃ s, sch = some s ∧ s.safeParse data = ZodSafeParseResult.success r.parsedData) ∧
      (sch = some zodSingleUserSchema → r.parsedData ≠ JsVal.null)) := by
  constructor
  · intro hv
    have he : outcome.errors = none := hajv hv
    simp [validateSchema, he]
  · intro r hr hv
    cases sch with
    | none =>
      simp only [validateSchemaUsingZod] at hr
      exact Except.noConfusion hr
    | some s =>
      cases hsp : s.safeParse data with
      | success d =>
        simp only [validateSchemaUsingZod, hsp] at hr
        rw [Except.ok.injEq] at hr
        subst hr
        refine ⟨rfl, rfl, ⟨s, rfl, hsp⟩, ?_⟩
        intro hsch
        obtain rfl := Option.some.inj hsch
        obtain ⟨hd, fs, hobj⟩ := zodSingleUser_success_shape data d hsp
        show d ≠ JsVal.null
        rw [hd, hobj]
        simp
      | failure issuesOpt =>
        simp only [validateSchemaUsingZod, hsp] at hr
        rw [Except.ok.injEq] at hr
        subst hr
        simp at hv

/-- Witness for the amended claim C1 at a concrete passing structural
outcome and at the single-user schema on a fully valid payload. -/
theorem claim_C1_witness :
    (validateSchema ⟨true, none⟩ JsVal.null).errors = [] ∧
    ((⟨true, c8payload, none, none⟩ : TypedResult).errors = none ∧
     (⟨true, c8payload, none, none⟩ : TypedResult).message = none ∧
     (∃ s, some zodSingleUserSchema = some s ∧
        s.safeParse c8payload =
          ZodSafeParseResult.success (⟨true, c8payload, none, none⟩ : TypedResult).parsedData) ∧
     (some zodSingleUserSchema = some zodSingleUserSchema →
        (⟨true, c8payload, none, none⟩ : TypedResult).parsedData ≠ JsVal.null)) := by
  have h1 := claim_C1 ⟨true, none⟩ (some zodSingleUserSchema) JsVal.null (fun _ => rfl)
  have h2 := claim_C1 ⟨true, none⟩ (some zodSingleUserSchema) c8payload (fun _ => rfl)
  exact ⟨h1.1 rfl, h2.2 ⟨true, c8payload, none, none⟩ rfl rfl⟩

/-- Claim C2: every violation either validator reports has its received
member equal to the walk of the original (defined) input data along the
error's path, with undefined mapped to null, and a root-level error (empty
path) receives the entire input data.  The hypothesis that the data is not
the undefined value holds for every payload of this repository, which
validates parsed JSON response bodies. -/
theorem claim_C2 (outcome : AjvOutcome) (s : ZodSchemaModel) (data : JsVal)
    (hdata : data ≠ JsVal.undefined) :
    (∀ e ∈ (validateSchema outcome data).errors,
      e.received = undefToNull (receivedAlong data e.path) ∧
      (e.path = [] → e.received = data)) ∧
    (∀ r, validateSchemaUsingZod (some s) data = Except.ok r →
      ∀ e ∈ r.errors.getD [],
        e.received = undefToNull (receivedAlong data e.path) ∧
        (e.path = [] → e.received = data)) := by
  have key : ∀ e : ValidationError,
      e.received = undefToNull (receivedAlong data e.path) →
      e.path = [] → e.received = data := by
    intro e h hp
    rw [h, hp, receivedAlong_nil, undefToNull_of_ne_undefined data hdata]
  constructor
  · intro e he
    simp only [validateSchema] at he
    obtain ⟨raw, _, rfl⟩ := List.mem_map.mp he
    exact ⟨rfl, key _ rfl⟩
  · intro r hr e he
    cases hsp : s.safeParse data with
    | success d =>
      simp only [validateSchemaUsingZod, hsp] at hr
      rw [Except.ok.injEq] at hr
      subst hr
      simp at he
    | failure issuesOpt =>
      simp only [validateSchemaUsingZod, hsp] at hr
      rw [Except.ok.injEq] at hr
      subst hr
      obtain ⟨raw, _, rfl⟩ := List.mem_map.mp he
      exact ⟨rfl, key _ rfl⟩

/-- A concrete AJV raw error whose pointer is /id. -/
def c2raw : AjvRawError :=
  ⟨some "/id", none, some "must be number", some ⟨.undefined, .str "number", .undefined⟩⟩

/-- A concrete AJV outcome reporting the error above. -/
def c2outcome : AjvOutcome := ⟨false, some [c2raw]⟩

/-- A concrete payload whose id member is the string "1". -/
def c2data : JsVal := .obj (.cons "id" (.str "1") .nil)

/-- The normalization of c2raw against c2data. -/
def c2err : ValidationError := ⟨["id"], "must be number", .str "number", .str "1"⟩

/-- Witness for claim C2 at the concrete outcome and payload above. -/
theorem claim_C2_witness :
    c2data ≠ JsVal.undefined ∧
    c2err ∈ (validateSchema c2outcome c2data).errors ∧
    c2err.received = undefToNull (receivedAlong c2data c2err.path) := by
  have hd : c2data ≠ JsVal.undefined := by simp [c2data]
  have hm : c2err ∈ (validateSchema c2outcome c2data).errors :=
    show c2err ∈ [c2err] from List.mem_singleton.mpr rfl
  exact ⟨hd, hm, ((claim_C2 c2outcome identSuccessSchema c2data hd).1 c2err hm).1⟩

/-- A schema object whose safe validation reports one wrong-type issue at
the userName field, as the Zod library does for a non-string userName. -/
def c3schema : ZodSchemaModel :=
  ⟨fun _ => .failure (some [⟨.arr (.cons (.str "userName") .nil),
      .str "Expected string, received number", .str "string"⟩])⟩

/-- A payload whose userName member is the number 0, a falsy value. -/
def c3data : JsVal :=
  .obj (.cons "id" (.num 1)
    (.cons "userName" (.num 0)
      (.cons "password" (.str "p") .nil)))

/-- The normalized error for that validation: it carries received = 0. -/
def c3err : ValidationError :=
  ⟨["userName"], "Expected string, received number", .str "string", .num 0⟩

/-- The result the typed validator actually returns there: because 0 is
falsy, the message line omits the received segment. -/
def c3result : TypedResult :=
  ⟨false, JsVal.null, some [c3err],
   some "path: userName | message: Expected string, received number | expected: \"string\""⟩

/-- Counterexample to claim C3 as stated: a failing typed validation with a
non-empty error list whose single error carries a received value (the number
0, which is not null), yet whose message is not the newline-join of lines
carrying a received segment for every carried value — the source guards the
segment by JavaScript truthiness, and 0 is falsy. -/
theorem claim_C3_counterexample :
    validateSchemaUsingZod (some c3schema) c3data = Except.ok c3result ∧
    c3result.errors = some [c3err] ∧ ([c3err] : List ValidationError) ≠ [] ∧
    c3err.received ≠ JsVal.null ∧
    c3result.message ≠ some (String.intercalate "\n" ([c3err].map claimedLine)) := by
  refine ⟨rfl, rfl, by simp, by simp [c3err], by decide⟩

/-- Claim C3 as amended: for every failing typed validation with a non-empty
normalized error list, the message is the newline-join of one line per
error, each line being path, the dot-joined path or (root), then the
message, then an expected segment whenever the expected value is truthy in
the JavaScript sense (not null, undefined, false, 0 or the empty string) and
a received segment whenever the received value is truthy. -/
theorem claim_C3 (s : ZodSchemaModel) (data : JsVal) (r : TypedResult)
    (es : List ValidationError)
    (hr : validateSchemaUsingZod (some s) data = Except.ok r)
    (hes : r.errors = some es) (hne : es ≠ []) :
    r.message = some (String.intercalate "\n" (es.map formatErrorLine)) := by
  cases hsp : s.safeParse data with
  | success d =>
    simp only [validateSchemaUsingZod, hsp] at hr
    rw [Except.ok.injEq] at hr
    subst hr
    simp at hes
  | failure issuesOpt =>
    simp only [validateSchemaUsingZod, hsp] at hr
    rw [Except.ok.injEq] at hr
    subst hr
    cases hes
    show some (typedFailureMessage _) = _
    rw [typedFailureMessage, if_neg]
    simpa using hne

/-- Witness for the amended claim C3 at the concrete validation above. -/
theorem claim_C3_witness :
    validateSchemaUsingZod (some c3schema) c3data = Except.ok c3result ∧
    c3result.errors = some [c3err] ∧ ([c3err] : List ValidationError) ≠ [] ∧
    c3result.message = some (String.intercalate "\n" ([c3err].map formatErrorLine)) := by
  refine ⟨rfl, rfl, by simp, claim_C3 c3schema c3data c3result [c3err] rfl rfl (by simp)⟩

/-- Claim C4: the typed validator throws exactly when the provided schema
object does not expose a callable safeParse (modelled by the none schema);
when safeParse is exposed, a payload-schema mismatch never raises an
exception and comes back as a structured result with valid = false. -/
theorem claim_C4 (sch : Option ZodSchemaModel) (data : JsVal) :
    ((∃ m, validateSchemaUsingZod sch data = Except.error m) ↔ sch = none) ∧
    (∀ s iss, sch = some s → s.safeParse data = ZodSafeParseResult.failure iss →
      ∃ r, validateSchemaUsingZod sch data = Except.ok r ∧ r.valid = false) := by
  constructor
  · constructor
    · rintro ⟨m, hm⟩
      cases sch with
      | none => rfl
      | some s =>
        cases hsp : s.safeParse data with
        | success d =>
          simp only [validateSchemaUsingZod, hsp] at hm
          exact Except.noConfusion hm
        | failure issuesOpt =>
          simp only [validateSchemaUsingZod, hsp] at hm
          exact Except.noConfusion hm
    · rintro rfl
      exact ⟨_, rfl⟩
  · rintro s iss rfl hsp
    simp only [validateSchemaUsingZod, hsp]
    exact ⟨_, rfl, rfl⟩

/-- Witness for claim C4: the guard fires on the capability-free schema, and
a failing safeParse comes back as a non-exceptional invalid result. -/
theorem claim_C4_witness :
    ((∃ m, validateSchemaUsingZod none JsVal.null = Except.error m) ↔
      (none : Option ZodSchemaModel) = none) ∧
    (∃ r, validateSchemaUsingZod (some alwaysFailSchema) JsVal.null = Except.ok r ∧
      r.valid = false) := by
  exact ⟨(claim_C4 none JsVal.null).1,
         (claim_C4 (some alwaysFailSchema) JsVal.null).2 alwaysFailSchema none rfl rfl⟩

/-- Counterexample to claim C5 as stated: there is no input at all on which
the two embedded assertSchema revisions disagree, so the repository does not
contain two behaviorally diverging revisions of assertSchema. -/
theorem claim_C5_counterexample :
    ¬ ∃ sch data, Part001.assertSchema sch data ≠ assertSchema sch data := by
  rintro ⟨sch, data, h⟩
  apply h
  unfold Part001.assertSchema assertSchema
  rw [part001_validate_eq]

/-- Claim C5 as amended: the repository contains two copies of assertSchema
(the current helper and the earlier revision file); both never throw on
validation failure and uniformly return the valid flag with the errors list
(empty for null), and the two embedded definitions are behaviorally equal.
No revision that throws on failure is present in the source. -/
theorem claim_C5 :
    ∀ sch data, Part001.assertSchema sch data = assertSchema sch data := by
  intro sch data
  unfold Part001.assertSchema assertSchema
  rw [part001_validate_eq]

/-- Claim C6: whenever the typed validator does not throw, assertSchema
returns exactly the valid flag together with the errors list, the null
errors member replaced by the empty list; parsedData and message are
discarded and no exception is raised on validation failure. -/
theorem claim_C6 (sch : Option ZodSchemaModel) (data : JsVal) (r : TypedResult)
    (hr : validateSchemaUsingZod sch data = Except.ok r) :
    assertSchema sch data = Except.ok ⟨r.valid, r.errors.getD []⟩ := by
  unfold assertSchema
  rw [hr]
  show Except.ok (AssertResult.mk r.valid (match r.errors with | some l => l | none => [])) =
    Except.ok (AssertResult.mk r.valid (r.errors.getD []))
  cases r.errors <;> rfl

/-- Witness for claim C6 on a schema whose safe validation fails without an
issue list. -/
theorem claim_C6_witness :
    assertSchema (some alwaysFailSchema) JsVal.null = Except.ok ⟨false, []⟩ := by
  exact claim_C6 (some alwaysFailSchema) JsVal.null
    ⟨false, JsVal.null, some [], some "Unknown validation error"⟩ rfl

/-- The concrete scenario 3 payload: id and userName present, password
missing. -/
def c7data : JsVal :=
  .obj (.cons "id" (.num 1) (.cons "userName" (.str "a") .nil))

/-- Claim C7: assertSchema on the typed single-user schema and the payload
missing password returns valid = false with exactly one error, located at
the path password, whose message contains "required".  The Zod validation
behaviour behind the fixture schema is modelled from the specification. -/
theorem claim_C7 :
    ∃ e, assertSchema (some zodSingleUserSchema) c7data = Except.ok ⟨false, [e]⟩ ∧
      e.path = ["password"] ∧ strContains e.message "required" = true := by
  exact ⟨⟨["password"], "required", .str "string", .null⟩, rfl, rfl, rfl⟩

/-- Claim C8: every payload the typed single-user schema accepts comes back
from the typed validator with parsedData equal to the input payload (so in
particular deep-equal to it); the schema has no transforming or coercing
fields and its validation behaviour is modelled from the specification. -/
theorem claim_C8 (payload d : JsVal)
    (h : zodSingleUserSchema.safeParse payload = ZodSafeParseResult.success d) :
    ∃ r, validateSchemaUsingZod (some zodSingleUserSchema) payload = Except.ok r ∧
      r.parsedData = payload := by
  obtain ⟨hd, -⟩ := zodSingleUser_success_shape payload d h
  rw [hd] at h
  exact ⟨⟨true, payload, none, none⟩, by simp only [validateSchemaUsingZod, h], rfl⟩

/-- Witness for claim C8 at the concrete valid payload above. -/
theorem claim_C8_witness :
    zodSingleUserSchema.safeParse c8payload = ZodSafeParseResult.success c8payload ∧
    ∃ r, validateSchemaUsingZod (some zodSingleUserSchema) c8payload = Except.ok r ∧
      r.parsedData = c8payload :=
  ⟨rfl, claim_C8 c8payload c8payload rfl⟩

/-- Claim C9: every error entry either validator produces is total: its path
is a list of strings and its message a string by the type of
ValidationError, and its expected and received members are never the
undefined value, any underlying undefined having been replaced by null. -/
theorem claim_C9 (outcome : AjvOutcome) (s : ZodSchemaModel) (data : JsVal) :
    (∀ e ∈ (validateSchema outcome data).errors,
      e.expected ≠ JsVal.undefined ∧ e.received ≠ JsVal.undefined) ∧
    (∀ r, validateSchemaUsingZod (some s) data = Except.ok r →
      ∀ e ∈ r.errors.getD [],
        e.expected ≠ JsVal.undefined ∧ e.received ≠ JsVal.undefined) := by
  constructor
  · intro e he
    simp only [validateSchema] at he
    obtain ⟨raw, _, rfl⟩ := List.mem_map.mp he
    exact ⟨undefToNull_ne_undefined _, undefToNull_ne_undefined _⟩
  · intro r hr e he
    cases hsp : s.safeParse data with
    | success d =>
      simp only [validateSchemaUsingZod, hsp] at hr
      rw [Except.ok.injEq] at hr
      subst hr
      simp at he
    | failure issuesOpt =>
      simp only [validateSchemaUsingZod, hsp] at hr
      rw [Except.ok.injEq] at hr
      subst hr
      obtain ⟨raw, _, rfl⟩ := List.mem_map.mp he
      exact ⟨undefToNull_ne_undefined _, undefToNull_ne_undefined _⟩

/-- Witness for claim C9 at the concrete structural error of c2outcome. -/
theorem claim_C9_witness :
    c2err.expected ≠ JsVal.undefined ∧ c2err.received ≠ JsVal.undefined := by
  have hm : c2err ∈ (validateSchema c2outcome c2data).errors :=
    show c2err ∈ [c2err] from List.mem_singleton.mpr rfl
  exact (claim_C9 c2outcome identSuccessSchema c2data).1 c2err hm

/-- Claim C10: when safeParse reports failure with no issue list (or an
empty one), the typed validator still returns valid = false, parsedData
null, an empty errors list and the fixed message, so a failing typed result
does not guarantee a non-empty errors list. -/
theorem claim_C10 (s : ZodSchemaModel) (data : JsVal)
    (h : s.safeParse data = ZodSafeParseResult.failure none ∨
         s.safeParse data = ZodSafeParseResult.failure (some [])) :
    validateSchemaUsingZod (some s) data =
      Except.ok ⟨false, JsVal.null, some [], some "Unknown validation error"⟩ := by
  rcases h with h | h <;> simp only [validateSchemaUsingZod, h] <;> rfl

/-- Witness for claim C10 on the schema that always fails without issues. -/
theorem claim_C10_witness :
    validateSchemaUsingZod (some alwaysFailSchema) JsVal.null =
      Except.ok ⟨false, JsVal.null, some [], some "Unknown validation error"⟩ :=
  claim_C10 alwaysFailSchema JsVal.null (Or.inl rfl)
